import Mathlib

/-!
Shallow embedding of the PMT fragment decoder of
`icaruscode/Decode/DecoderTools/PMTDecoder_tool.cc`.

Durations (`util::quantities::intervals::nanoseconds`, a `double`-backed
quantity in the source) are modelled as exact rationals `Rat`; every value the
specification exercises is exactly representable, so no rounding behaviour is
lost.  Machine `uint32_t` arithmetic in the fragment header computation is
modelled on `Nat` with explicit reduction modulo `2^32`.

Components declared in
`icaruscode/Decode/DecoderTools/details/PMTDecoderUtils.h` (the board-info
lookup container and the by-name binary search) are not part of this source
tree; their definitions below are modelled from the specification and say so
in their doc comments.  Everything else is translated directly from
`PMTDecoder_tool.cc`.
-/

/-- Duration in nanoseconds (exact model of the `double`-backed quantity). -/
abbrev Nanoseconds := Rat

/-- Entry of the `BoardSetup` tool configuration
(`details::BoardSetup_t`, filled by `daq::convert` from `BoardSetupConfig`):
board name, optional fragment ID (the C++ uses the sentinel `NoFragmentID`
for an absent value, modelled here as `Option.none`), and trigger delay. -/
structure BoardSetup_t where
  name : String
  fragmentID : Option Nat
  triggerDelay : Nanoseconds
deriving DecidableEq

/-- Whether the setup entry carries a fragment ID
(`BoardSetup_t::hasFragmentID()`). -/
def BoardSetup_t.hasFragmentID (s : BoardSetup_t) : Bool :=
  s.fragmentID.isSome

/-- Runtime PMT readout board configuration (`sbn::V1730Configuration`):
the fields of it used by the decoder. -/
structure V1730Configuration where
  boardName : String
  fragmentID : Nat
  bufferLength : Nat
  postTriggerFrac : Rat
deriving DecidableEq

/-- Derived quantities for a board (`details::BoardFacts_t`). -/
structure BoardFacts_t where
  preTriggerTime : Nanoseconds
deriving DecidableEq

/-- One record of the board-information database
(`details::BoardInfoLookup::BoardInfo_t`): fragment ID plus the available
setup and configuration references and the derived facts. -/
structure BoardInfo_t where
  fragmentID : Nat
  setup : Option BoardSetup_t
  config : Option V1730Configuration
  facts : BoardFacts_t
deriving DecidableEq

/-- Fatal errors thrown by the decoder (`cet::exception` in the source).
`nullPointerDereference` marks the undefined behaviour reached at
`return ppBoardConfig->second;` when the binary search came back empty and
`fRequireKnownBoards` is false: the C++ dereferences a null pointer there. -/
inductive DecodeError where
  | configConflict (boardName : String) (configID setupID : Nat)
  | noDAQConfiguration (boardName : String)
  | nullPointerDereference (boardName : String)
  | unknownBoard (fragmentID : Nat)
deriving DecidableEq

/-- Non-fatal messages printed by `matchBoardConfigurationAndSetup`
(`mf::LogPrint` in the source). -/
inductive DecodeWarning where
  | noConfigurationInfo (boardName : String)
  | noFragmentIDAssociation (boardName : String)
deriving DecidableEq

/-- Tool configuration flags (members of `daq::PMTDecoder` read from FHiCL).
Defaults as declared in `PMTDecoder::Config`. -/
structure PMTDecoderConfig where
  diagnosticOutput : Bool := false
  requireKnownBoards : Bool := true
  requireBoardConfig : Bool := true
deriving DecidableEq

/-- Name order on board configurations, the sort key used for `configByName`. -/
def configNameLE (a b : V1730Configuration) : Prop := a.boardName ≤ b.boardName

instance : DecidableRel configNameLE :=
  fun a b => inferInstanceAs (Decidable (a.boardName ≤ b.boardName))

instance : IsTotal V1730Configuration configNameLE :=
  ⟨fun u v => le_total u.boardName v.boardName⟩

instance : IsTrans V1730Configuration configNameLE :=
  ⟨fun _ _ _ hab hbc => le_trans hab hbc⟩

/-- Dictionary of board configurations sorted by board name, as built at the
top of `matchBoardConfigurationAndSetup` (`configByName` with `std::sort`).
The C++ sorts pairs of name and pointer; we sort the configurations by name
with a stable structural sort. -/
def sortConfigsByName (boards : List V1730Configuration) : List V1730Configuration :=
  boards.insertionSort configNameLE

/-- Modelled from the spec: `details::binarySearch` is declared in
`PMTDecoderUtils.h`, which is not part of this source tree.  The spec
describes it as binary-search lookup by name over the name-sorted index,
which on a sorted list returns the first entry carrying the sought name;
we model it as that first-match search. -/
def binarySearchByName (boards : List V1730Configuration) (name : String) :
    Option V1730Configuration :=
  boards.find? (fun b => b.boardName == name)

/-- Lookup of the PMT configuration for a board name: the `findPMTconfig`
lambda inside `matchBoardConfigurationAndSetup`.  When no PMT configuration
source is available it returns null; when the name is missing from the
available configuration it throws if `fRequireKnownBoards` is set, and
otherwise falls through to `return ppBoardConfig->second;`, dereferencing
the null search result (undefined behaviour, marked as an error value). -/
def findPMTconfig (hasPMTconfig requireKnownBoards : Bool)
    (configByName : List V1730Configuration) (name : String) :
    Except DecodeError (Option V1730Configuration) :=
  if hasPMTconfig = false then .ok none
  else
    match binarySearchByName configByName name with
    | some cfg => .ok (some cfg)
    | none =>
      if requireKnownBoards then .error (.noDAQConfiguration name)
      else .error (.nullPointerDereference name)

/-- Pre-trigger buffer duration computed from a board configuration:
`(pBoardConfig->bufferLength * (1.0f - pBoardConfig->postTriggerFrac)) * fOpticalTick`. -/
def computePreTriggerTime (opticalTick : Nanoseconds) (cfg : V1730Configuration) :
    Nanoseconds :=
  ((cfg.bufferLength : Rat) * (1 - cfg.postTriggerFrac)) * opticalTick

/-- Body of the loop over `fBoardSetup` in `matchBoardConfigurationAndSetup`:
processes one setup entry, producing the board record to append (if any) and
the warnings printed, or the fatal error thrown. -/
def processBoardSetup (hasPMTconfig requireKnownBoards : Bool)
    (opticalTick : Nanoseconds) (configByName : List V1730Configuration)
    (boardSetup : BoardSetup_t) :
    Except DecodeError (Option BoardInfo_t × List DecodeWarning) :=
  match findPMTconfig hasPMTconfig requireKnownBoards configByName boardSetup.name with
  | .error e => .error e
  | .ok (some cfg) =>
    match boardSetup.fragmentID with
    | some sid =>
      if sid ≠ cfg.fragmentID then
        .error (.configConflict boardSetup.name cfg.fragmentID sid)
      else
        .ok (some { fragmentID := cfg.fragmentID, setup := some boardSetup,
                    config := some cfg,
                    facts := ⟨computePreTriggerTime opticalTick cfg⟩ }, [])
    | none =>
      .ok (some { fragmentID := cfg.fragmentID, setup := some boardSetup,
                  config := some cfg,
                  facts := ⟨computePreTriggerTime opticalTick cfg⟩ }, [])
  | .ok none =>
    match boardSetup.fragmentID with
    | some sid =>
      .ok (some { fragmentID := sid, setup := some boardSetup, config := none,
                  facts := ⟨0⟩ }, [.noConfigurationInfo boardSetup.name])
    | none =>
      .ok (none, [.noFragmentIDAssociation boardSetup.name])

/-- The loop of `matchBoardConfigurationAndSetup` over all `fBoardSetup`
entries, in input order, collecting records and warnings; the first thrown
error aborts the whole resolution. -/
def processAllBoards (hasPMTconfig requireKnownBoards : Bool)
    (opticalTick : Nanoseconds) (configByName : List V1730Configuration) :
    List BoardSetup_t → Except DecodeError (List BoardInfo_t × List DecodeWarning)
  | [] => .ok ([], [])
  | s :: rest =>
    match processBoardSetup hasPMTconfig requireKnownBoards opticalTick configByName s with
    | .error e => .error e
    | .ok (r?, ws) =>
      match processAllBoards hasPMTconfig requireKnownBoards opticalTick configByName rest with
      | .error e => .error e
      | .ok (recs, ws2) => .ok (r?.toList ++ recs, ws ++ ws2)

/-- Helper of `dedupByFragmentID`: `a` is the last record kept so far;
records whose fragment ID repeats it are dropped. -/
def dedupKeyed (a : BoardInfo_t) : List BoardInfo_t → List BoardInfo_t
  | [] => [a]
  | b :: rest =>
    if a.fragmentID = b.fragmentID then dedupKeyed a rest
    else a :: dedupKeyed b rest

/-- Removal of later records with a duplicated fragment ID from an already
key-sorted record list (part of the spec-modelled database construction). -/
def dedupByFragmentID : List BoardInfo_t → List BoardInfo_t
  | [] => []
  | a :: rest => dedupKeyed a rest

/-- Fragment-ID order on board records, the sort key of the database. -/
def boardFragLE (a b : BoardInfo_t) : Prop := a.fragmentID ≤ b.fragmentID

instance : DecidableRel boardFragLE :=
  fun a b => inferInstanceAs (Decidable (a.fragmentID ≤ b.fragmentID))

instance : IsTotal BoardInfo_t boardFragLE := ⟨fun u v => Nat.le_total u.fragmentID v.fragmentID⟩

instance : IsTrans BoardInfo_t boardFragLE := ⟨fun _ _ _ hab hbc => Nat.le_trans hab hbc⟩

/-- Modelled from the spec: the `details::BoardInfoLookup` constructor is
declared in `PMTDecoderUtils.h`, which is not part of this source tree.
The spec describes the resulting database as an ordered sequence of records
sorted and deduplicated by `fragmentID`; we model the construction as a
stable sort by fragment ID followed by removal of later duplicates. -/
def freezeDatabase (records : List BoardInfo_t) : List BoardInfo_t :=
  dedupByFragmentID (records.insertionSort boardFragLE)

/-- The configuration-merge engine
`daq::PMTDecoder::matchBoardConfigurationAndSetup`: merges the `BoardSetup`
tool configuration with the optional PMT configuration into the frozen
board-information database, also reporting the warnings printed.  Of the
tool flags it consults only `requireKnownBoards` (via `findPMTconfig`),
exactly as the source does. -/
def matchBoardConfigurationAndSetup (cfg : PMTDecoderConfig)
    (opticalTick : Nanoseconds) (PMTconfig : Option (List V1730Configuration))
    (setups : List BoardSetup_t) :
    Except DecodeError (List BoardInfo_t × List DecodeWarning) :=
  match processAllBoards PMTconfig.isSome cfg.requireKnownBoards opticalTick
      (sortConfigsByName (PMTconfig.getD [])) setups with
  | .error e => .error e
  | .ok (records, ws) => .ok (freezeDatabase records, ws)

/-- Modelled from the spec: `details::BoardInfoLookup::findBoardInfo` is
declared in `PMTDecoderUtils.h`, which is not part of this source tree.
The spec describes it as logarithmic-time lookup by fragment ID over the
sorted record sequence; we model it as the first-match search, which agrees
with any correct search on the sorted, duplicate-free database. -/
def findBoardInfo (database : List BoardInfo_t) (fragmentID : Nat) :
    Option BoardInfo_t :=
  database.find? (fun bi => bi.fragmentID == fragmentID)

/-- Decoder-relevant content of a CAEN V1730 fragment: the fragment ID, the
event-header fields read by `process_fragment` (`header.eventSize` in 32-bit
units and `header.triggerTimeTag`), the channel count from the metadata, and
the 16-bit sample payload following the event header. -/
structure CAENFragment where
  fragmentID : Nat
  eventSizeQuad : Nat
  triggerTimeTag : Nat
  nChannels : Nat
  payload : List Nat
deriving DecidableEq

/-- Reduction modulo `2^32`, the behaviour of C++ `uint32_t` arithmetic. -/
def u32 (n : Nat) : Nat := n % 4294967296

/-- Payload size in 16-bit units:
`data_size_double_bytes = 2*(ev_size_quad_bytes - evt_header_size_quad_bytes)`
computed in `uint32_t` arithmetic (wrap-around subtraction). -/
def dataSizeDoubleBytes (eventSizeQuad headerSizeQuad : Nat) : Nat :=
  u32 (2 * u32 (u32 eventSizeQuad + 4294967296 - u32 headerSizeQuad))

/-- Samples per channel:
`nSamplesPerChannel = data_size_double_bytes / nChannelsPerBoard`
(truncating unsigned integer division, exactly as in the source). -/
def nSamplesPerChannel (eventSizeQuad headerSizeQuad nChannels : Nat) : Nat :=
  dataSizeDoubleBytes eventSizeQuad headerSizeQuad / nChannels

/-- Output waveform (`raw::OpDetWaveform`): timestamp, channel number and
sample sequence. -/
structure OpDetWaveform where
  timeStamp : Rat
  channelNumber : Nat
  waveform : List Nat
deriving DecidableEq

/-- Per-board information needed while decoding
(`daq::PMTDecoder::NeededBoardInfo_t`). -/
structure NeededBoardInfo_t where
  name : String
  preTriggerTime : Nanoseconds
  PMTtriggerDelay : Nanoseconds
deriving DecidableEq

/-- Translation of `daq::PMTDecoder::fetchNeededBoardInfo`: the display name
is the configured board name when a configuration reference exists and a
placeholder embedding the fragment ID otherwise; the pre-trigger time comes
from the facts when the record exists (else zero); the trigger delay comes
from the setup reference when present (else zero). -/
def fetchNeededBoardInfo (boardInfo : Option BoardInfo_t) (fragmentID : Nat) :
    NeededBoardInfo_t :=
  { name :=
      match boardInfo with
      | some bi =>
        match bi.config with
        | some cfg => cfg.boardName
        | none => "<ID=" ++ toString fragmentID
      | none => "<ID=" ++ toString fragmentID
  , preTriggerTime :=
      match boardInfo with
      | some bi => bi.facts.preTriggerTime
      | none => 0
  , PMTtriggerDelay :=
      match boardInfo with
      | some bi =>
        match bi.setup with
        | some s => s.triggerDelay
        | none => 0
      | none => 0 }

/-- The per-channel emission loop of `process_fragment`: for each
`(digitizerChannel, channelID)` pair of the channel map, copy
`nSamples` contiguous 16-bit samples starting at
`digitizerChannel * nSamples` and tag them with the common timestamp. -/
def emitWaveforms (digitizerChannelVec : List (Nat × Nat)) (timeStamp : Rat)
    (payload : List Nat) (nSamples : Nat) : List OpDetWaveform :=
  digitizerChannelVec.map (fun p =>
    { timeStamp := timeStamp, channelNumber := p.2,
      waveform := (payload.drop (p.1 * nSamples)).take nSamples })

/-- Translation of `daq::PMTDecoder::process_fragment`.  The channel map is
the external collaborator `fChannelMap`: `channelMap effID` is
`getChannelIDPairVec(effID)` when `hasPMTDigitizerID(effID)` holds and
`none` otherwise (in which case only an error message is logged and the
fragment contributes nothing).  `triggerTime` is
`fDetTimings.TriggerTime()`; `headerSizeQuad` is
`sizeof(sbndaq::CAENV1730EventHeader)/sizeof(uint32_t)`. -/
def process_fragment (cfg : PMTDecoderConfig) (triggerTime : Rat)
    (channelMap : Nat → Option (List (Nat × Nat)))
    (database : List BoardInfo_t) (headerSizeQuad : Nat)
    (frag : CAENFragment) (collection : List OpDetWaveform) :
    Except DecodeError (List OpDetWaveform) :=
  let fragment_id := frag.fragmentID
  let eff_fragment_id := frag.fragmentID % 4096
  let nSamples := nSamplesPerChannel frag.eventSizeQuad headerSizeQuad frag.nChannels
  match channelMap eff_fragment_id with
  | none => .ok collection
  | some digitizerChannelVec =>
    match findBoardInfo database fragment_id with
    | none =>
      if cfg.requireKnownBoards then .error (.unknownBoard fragment_id)
      else
        let info := fetchNeededBoardInfo none fragment_id
        .ok (collection ++ emitWaveforms digitizerChannelVec
          (triggerTime - info.PMTtriggerDelay - info.preTriggerTime)
          frag.payload nSamples)
    | some bi =>
      let info := fetchNeededBoardInfo (some bi) fragment_id
      .ok (collection ++ emitWaveforms digitizerChannelVec
        (triggerTime - info.PMTtriggerDelay - info.preTriggerTime)
        frag.payload nSamples)

/-- Channel-number order on output waveforms, the final sort key. -/
def wfChannelLE (a b : OpDetWaveform) : Prop := a.channelNumber ≤ b.channelNumber

instance : DecidableRel wfChannelLE :=
  fun a b => inferInstanceAs (Decidable (a.channelNumber ≤ b.channelNumber))

instance : IsTotal OpDetWaveform wfChannelLE := ⟨fun u v => Nat.le_total u.channelNumber v.channelNumber⟩

instance : IsTrans OpDetWaveform wfChannelLE := ⟨fun _ _ _ hab hbc => Nat.le_trans hab hbc⟩

/-- Translation of `daq::PMTDecoder::outputDataProducts`: the accumulated
waveforms are sorted by channel number before hand-off
(`std::sort` with a strict `<` comparator on `ChannelNumber()`; ties have
no specified order in C++, modelled here with a stable structural sort). -/
def outputDataProducts (collection : List OpDetWaveform) : List OpDetWaveform :=
  collection.insertionSort wfChannelLE

/-! Helper lemmas about the resolution loop and the database construction. -/

/-- Record contributed by a single setup entry (none when the entry is
skipped or throws). -/
def stepRecord (hasPMTconfig requireKnownBoards : Bool)
    (opticalTick : Nanoseconds) (configByName : List V1730Configuration)
    (s : BoardSetup_t) : Option BoardInfo_t :=
  match processBoardSetup hasPMTconfig requireKnownBoards opticalTick configByName s with
  | .ok (r?, _) => r?
  | .error _ => none

theorem processAllBoards_ok_elem {h k : Bool} {t : Nanoseconds}
    {c : List V1730Configuration} {l : List BoardSetup_t} {x}
    (hok : processAllBoards h k t c l = .ok x) :
    ∀ s ∈ l, ∃ y, processBoardSetup h k t c s = .ok y := by
  induction l generalizing x with
  | nil => intro s hs; cases hs
  | cons a rest ih =>
    intro s hs
    unfold processAllBoards at hok
    cases hstep : processBoardSetup h k t c a with
    | error e => rw [hstep] at hok; cases hok
    | ok y =>
      rw [hstep] at hok
      cases hs with
      | head => exact ⟨y, hstep⟩
      | tail _ hmem =>
        obtain ⟨r?, ws⟩ := y
        cases hrest : processAllBoards h k t c rest with
        | error e => rw [hrest] at hok; cases hok
        | ok z => exact ih hrest s hmem

theorem processAllBoards_error_of_elem {h k : Bool} {t : Nanoseconds}
    {c : List V1730Configuration} {l : List BoardSetup_t} {s : BoardSetup_t}
    {e : DecodeError} (hmem : s ∈ l)
    (herr : processBoardSetup h k t c s = .error e) :
    ∀ x, processAllBoards h k t c l ≠ .ok x := by
  intro x hok
  obtain ⟨y, hy⟩ := processAllBoards_ok_elem hok s hmem
  rw [herr] at hy
  cases hy

theorem processAllBoards_records {h k : Bool} {t : Nanoseconds}
    {c : List V1730Configuration} {l : List BoardSetup_t} {recs ws}
    (hok : processAllBoards h k t c l = .ok (recs, ws)) :
    recs = l.filterMap (stepRecord h k t c) := by
  induction l generalizing recs ws with
  | nil =>
    unfold processAllBoards at hok
    injection hok with hok
    injection hok with h1 h2
    simp [h1.symm]
  | cons a rest ih =>
    unfold processAllBoards at hok
    cases hstep : processBoardSetup h k t c a with
    | error e => rw [hstep] at hok; cases hok
    | ok y =>
      obtain ⟨r?, ws1⟩ := y
      rw [hstep] at hok
      cases hrest : processAllBoards h k t c rest with
      | error e => rw [hrest] at hok; cases hok
      | ok z =>
        obtain ⟨recs2, ws2⟩ := z
        rw [hrest] at hok
        injection hok with hok
        injection hok with h1 h2
        have hr := ih hrest
        subst h1
        rw [List.filterMap_cons, hr, stepRecord, hstep]
        cases r? <;> simp

theorem processAllBoards_all_ok {h k : Bool} {t : Nanoseconds}
    {c : List V1730Configuration} {l : List BoardSetup_t}
    (hall : ∀ s ∈ l, ∃ y, processBoardSetup h k t c s = .ok y) :
    ∃ x, processAllBoards h k t c l = .ok x := by
  induction l with
  | nil => exact ⟨([], []), rfl⟩
  | cons a rest ih =>
    obtain ⟨⟨r?, ws⟩, hy⟩ := hall a (List.mem_cons_self a rest)
    obtain ⟨⟨recs, ws2⟩, hz⟩ := ih (fun s hs => hall s (List.mem_cons_of_mem a hs))
    exact ⟨(r?.toList ++ recs, ws ++ ws2), by unfold processAllBoards; rw [hy, hz]⟩

theorem processBoardSetup_congr {h k : Bool} {t : Nanoseconds}
    {c1 c2 : List V1730Configuration} (s : BoardSetup_t)
    (hc : binarySearchByName c1 s.name = binarySearchByName c2 s.name) :
    processBoardSetup h k t c1 s = processBoardSetup h k t c2 s := by
  unfold processBoardSetup findPMTconfig
  rw [hc]

theorem processAllBoards_congr {h1 h2 k1 k2 : Bool} {t : Nanoseconds}
    {c1 c2 : List V1730Configuration}
    (hstep : ∀ s, processBoardSetup h1 k1 t c1 s = processBoardSetup h2 k2 t c2 s) :
    ∀ l, processAllBoards h1 k1 t c1 l = processAllBoards h2 k2 t c2 l := by
  intro l
  induction l with
  | nil => rfl
  | cons a rest ih =>
    unfold processAllBoards
    rw [hstep a, ih]

theorem find?_eq_of_perm_of_unique {α : Type} {p : α → Bool} {l l' : List α}
    (hperm : l.Perm l')
    (huniq : ∀ a ∈ l, ∀ b ∈ l, p a = true → p b = true → a = b) :
    l.find? p = l'.find? p := by
  cases hfind : l.find? p with
  | none =>
    rw [List.find?_eq_none] at hfind
    symm
    rw [List.find?_eq_none]
    intro x hx
    exact hfind x (hperm.mem_iff.mpr hx)
  | some a =>
    have hpa := List.find?_some hfind
    have hmema := List.mem_of_find?_eq_some hfind
    cases hfind' : l'.find? p with
    | none =>
      rw [List.find?_eq_none] at hfind'
      exact absurd hpa (hfind' a (hperm.mem_iff.mp hmema))
    | some b =>
      have hpb := List.find?_some hfind'
      have hmemb := hperm.mem_iff.mpr (List.mem_of_find?_eq_some hfind')
      exact congrArg some (huniq a hmema b hmemb hpa hpb)

theorem binarySearchByName_perm {cfgs cfgs' : List V1730Configuration}
    (hnames : (cfgs.map V1730Configuration.boardName).Nodup)
    (hperm : cfgs.Perm cfgs') (name : String) :
    binarySearchByName (sortConfigsByName cfgs) name
      = binarySearchByName (sortConfigsByName cfgs') name := by
  have hp1 : (sortConfigsByName cfgs).Perm cfgs := List.perm_insertionSort configNameLE cfgs
  have hp2 : (sortConfigsByName cfgs').Perm cfgs' := List.perm_insertionSort configNameLE cfgs'
  have hp : (sortConfigsByName cfgs).Perm (sortConfigsByName cfgs') :=
    (hp1.trans hperm).trans hp2.symm
  apply find?_eq_of_perm_of_unique hp
  intro a ha b hb hpa hpb
  have ha' : a ∈ cfgs := hp1.mem_iff.mp ha
  have hb' : b ∈ cfgs := hp1.mem_iff.mp hb
  have hna : a.boardName = name := by simpa using hpa
  have hnb : b.boardName = name := by simpa using hpb
  exact List.inj_on_of_nodup_map hnames ha' hb' (hna.trans hnb.symm)

theorem mem_dedupKeyed {x : BoardInfo_t} :
    ∀ {l : List BoardInfo_t} {a : BoardInfo_t}, x ∈ dedupKeyed a l → x = a ∨ x ∈ l := by
  intro l
  induction l with
  | nil =>
    intro a hx
    exact Or.inl (List.mem_singleton.mp hx)
  | cons b rest ih =>
    intro a hx
    by_cases heq : a.fragmentID = b.fragmentID
    · rw [dedupKeyed, if_pos heq] at hx
      rcases ih hx with h1 | h2
      · exact Or.inl h1
      · exact Or.inr (List.mem_cons_of_mem b h2)
    · rw [dedupKeyed, if_neg heq] at hx
      rcases List.mem_cons.mp hx with h1 | h2
      · exact Or.inl h1
      · rcases ih h2 with h3 | h4
        · exact Or.inr (List.mem_cons.mpr (Or.inl h3))
        · exact Or.inr (List.mem_cons_of_mem b h4)

theorem pairwise_dedupKeyed :
    ∀ {l : List BoardInfo_t} {a : BoardInfo_t},
      (a :: l).Pairwise (fun u v => u.fragmentID ≤ v.fragmentID) →
      (dedupKeyed a l).Pairwise (fun u v => u.fragmentID < v.fragmentID) := by
  intro l
  induction l with
  | nil =>
    intro a _
    exact List.pairwise_singleton _ a
  | cons b rest ih =>
    intro a hpw
    rcases List.pairwise_cons.mp hpw with ⟨hle, hpw2⟩
    rcases List.pairwise_cons.mp hpw2 with ⟨hle2, hpw3⟩
    by_cases heq : a.fragmentID = b.fragmentID
    · rw [dedupKeyed, if_pos heq]
      apply ih
      exact List.pairwise_cons.mpr
        ⟨fun x hx => hle x (List.mem_cons_of_mem b hx), hpw3⟩
    · rw [dedupKeyed, if_neg heq]
      apply List.pairwise_cons.mpr
      refine ⟨?_, ih hpw2⟩
      intro x hx
      have hab : a.fragmentID < b.fragmentID :=
        Nat.lt_of_le_of_ne (hle b (List.mem_cons_self b rest)) heq
      rcases mem_dedupKeyed hx with h1 | h2
      · rw [h1]; exact hab
      · exact Nat.lt_of_lt_of_le hab (hle2 x h2)

theorem pairwise_dedupByFragmentID {l : List BoardInfo_t}
    (h : l.Pairwise (fun a b => a.fragmentID ≤ b.fragmentID)) :
    (dedupByFragmentID l).Pairwise (fun a b => a.fragmentID < b.fragmentID) := by
  cases l with
  | nil => exact List.Pairwise.nil
  | cons a rest => exact pairwise_dedupKeyed h

theorem pairwise_le_sortByFragmentID (recs : List BoardInfo_t) :
    (recs.insertionSort boardFragLE).Pairwise
      (fun a b => a.fragmentID ≤ b.fragmentID) :=
  List.sorted_insertionSort boardFragLE recs

theorem pairwise_lt_freezeDatabase (recs : List BoardInfo_t) :
    (freezeDatabase recs).Pairwise (fun a b => a.fragmentID < b.fragmentID) :=
  pairwise_dedupByFragmentID (pairwise_le_sortByFragmentID recs)

theorem freezeDatabase_eq_of_perm {recs recs' : List BoardInfo_t}
    (hperm : recs.Perm recs')
    (hnodup : (recs.map BoardInfo_t.fragmentID).Nodup) :
    freezeDatabase recs = freezeDatabase recs' := by
  have hps : (recs.insertionSort boardFragLE).Perm recs :=
    List.perm_insertionSort boardFragLE recs
  have hps' : (recs'.insertionSort boardFragLE).Perm recs' :=
    List.perm_insertionSort boardFragLE recs'
  have hp : (recs.insertionSort boardFragLE).Perm (recs'.insertionSort boardFragLE) :=
    (hps.trans hperm).trans hps'.symm
  have hkey : ∀ {l : List BoardInfo_t},
      (l.map BoardInfo_t.fragmentID).Nodup →
      l.Pairwise (fun a b => a.fragmentID ≤ b.fragmentID) →
      l.Pairwise (fun a b => a.fragmentID < b.fragmentID) := by
    intro l hnd hle
    have hne : l.Pairwise (fun a b => a.fragmentID ≠ b.fragmentID) :=
      List.pairwise_map.mp hnd
    exact (hle.and hne).imp (fun hab => Nat.lt_of_le_of_ne hab.1 hab.2)
  have hnodup' : (recs'.map BoardInfo_t.fragmentID).Nodup :=
    ((hperm.map BoardInfo_t.fragmentID).nodup_iff).mp hnodup
  have hnd1 : ((recs.insertionSort boardFragLE).map BoardInfo_t.fragmentID).Nodup :=
    ((hps.map BoardInfo_t.fragmentID).nodup_iff).mpr hnodup
  have hnd2 : ((recs'.insertionSort boardFragLE).map BoardInfo_t.fragmentID).Nodup :=
    ((hps'.map BoardInfo_t.fragmentID).nodup_iff).mpr hnodup'
  have hlt1 := hkey hnd1 (pairwise_le_sortByFragmentID recs)
  have hlt2 := hkey hnd2 (pairwise_le_sortByFragmentID recs')
  haveI : IsAntisymm BoardInfo_t (fun a b => a.fragmentID < b.fragmentID) :=
    ⟨fun a b h1 h2 => absurd h2 (Nat.lt_asymm h1)⟩
  have hsorted := List.eq_of_perm_of_sorted hp hlt1 hlt2
  unfold freezeDatabase
  rw [hsorted]

/-- Decidable equality of decoder results, used to evaluate the embedding at
concrete inputs. -/
instance {e a : Type} [DecidableEq e] [DecidableEq a] : DecidableEq (Except e a) := fun x y =>
  match x, y with
  | .ok u, .ok v =>
    if h : u = v then isTrue (by rw [h]) else isFalse (fun hc => by injection hc; contradiction)
  | .error u, .error v =>
    if h : u = v then isTrue (by rw [h]) else isFalse (fun hc => by injection hc; contradiction)
  | .ok _, .error _ => isFalse (fun hc => by injection hc)
  | .error _, .ok _ => isFalse (fun hc => by injection hc)

theorem matchBoard_ok_elim {cfg : PMTDecoderConfig} {t : Nanoseconds}
    {pc : Option (List V1730Configuration)} {setups : List BoardSetup_t}
    {db : List BoardInfo_t} {ws : List DecodeWarning}
    (h : matchBoardConfigurationAndSetup cfg t pc setups = .ok (db, ws)) :
    ∃ recs, processAllBoards pc.isSome cfg.requireKnownBoards t
        (sortConfigsByName (pc.getD [])) setups = .ok (recs, ws)
      ∧ db = freezeDatabase recs := by
  unfold matchBoardConfigurationAndSetup at h
  cases hall : processAllBoards pc.isSome cfg.requireKnownBoards t
      (sortConfigsByName (pc.getD [])) setups with
  | error e => rw [hall] at h; cases h
  | ok x =>
    obtain ⟨recs, ws2⟩ := x
    rw [hall] at h
    injection h with h
    injection h with h1 h2
    exact ⟨recs, by rw [h2], h1.symm⟩

theorem matchBoard_ok_intro {cfg : PMTDecoderConfig} {t : Nanoseconds}
    {pc : Option (List V1730Configuration)} {setups : List BoardSetup_t}
    {recs : List BoardInfo_t} {ws : List DecodeWarning}
    (h : processAllBoards pc.isSome cfg.requireKnownBoards t
        (sortConfigsByName (pc.getD [])) setups = .ok (recs, ws)) :
    matchBoardConfigurationAndSetup cfg t pc setups = .ok (freezeDatabase recs, ws) := by
  unfold matchBoardConfigurationAndSetup
  rw [h]

theorem processBoardSetup_noConfig (k : Bool) (t : Nanoseconds) (s : BoardSetup_t) :
    processBoardSetup false k t [] s
      = match s.fragmentID with
        | some sid => .ok (some ⟨sid, some s, none, ⟨0⟩⟩, [.noConfigurationInfo s.name])
        | none => .ok (none, [.noFragmentIDAssociation s.name]) := rfl

/-! Claim theorems. -/

/-- C1: every database produced by `matchBoardConfigurationAndSetup` has its
records sorted strictly ascending by fragment ID; in particular the fragment
ID values are pairwise distinct. -/
theorem pmt_resolvedDatabase_sorted_unique
    (cfg : PMTDecoderConfig) (t : Nanoseconds)
    (pc : Option (List V1730Configuration)) (setups : List BoardSetup_t)
    (db : List BoardInfo_t) (ws : List DecodeWarning)
    (h : matchBoardConfigurationAndSetup cfg t pc setups = .ok (db, ws)) :
    db.Pairwise (fun a b => a.fragmentID < b.fragmentID) := by
  obtain ⟨recs, _, hdb⟩ := matchBoard_ok_elim h
  rw [hdb]
  exact pairwise_lt_freezeDatabase recs

theorem pmt_resolvedDatabase_sorted_unique_witness :
    ([⟨3, some ⟨"A", some 3, 0⟩, none, ⟨0⟩⟩, ⟨9, some ⟨"B", some 9, 0⟩, none, ⟨0⟩⟩] :
        List BoardInfo_t).Pairwise (fun a b => a.fragmentID < b.fragmentID) :=
  pmt_resolvedDatabase_sorted_unique ⟨false, false, true⟩ 2 none
    [⟨"B", some 9, 0⟩, ⟨"A", some 3, 0⟩, ⟨"C", some 9, 1⟩]
    [⟨3, some ⟨"A", some 3, 0⟩, none, ⟨0⟩⟩, ⟨9, some ⟨"B", some 9, 0⟩, none, ⟨0⟩⟩]
    [.noConfigurationInfo "B", .noConfigurationInfo "A", .noConfigurationInfo "C"]
    (by decide)

/-- C4: a setup entry whose name has a matching configuration entry and whose
own fragment ID is set but differs from the configuration fragment ID makes
the resolution loop throw the fragment-ID conflict error, and the whole
resolution aborts, producing no database. -/
theorem pmt_configConflict_aborts
    (cfg : PMTDecoderConfig) (t : Nanoseconds)
    (cfgs : List V1730Configuration) (setups : List BoardSetup_t)
    (e : BoardSetup_t) (c : V1730Configuration) (sid : Nat)
    (hmem : e ∈ setups)
    (hlookup : binarySearchByName (sortConfigsByName cfgs) e.name = some c)
    (hsid : e.fragmentID = some sid) (hne : sid ≠ c.fragmentID) :
    processBoardSetup true cfg.requireKnownBoards t (sortConfigsByName cfgs) e
        = .error (.configConflict e.name c.fragmentID sid)
    ∧ (matchBoardConfigurationAndSetup cfg t (some cfgs) setups).isOk = false := by
  have hstep : processBoardSetup true cfg.requireKnownBoards t (sortConfigsByName cfgs) e
      = .error (.configConflict e.name c.fragmentID sid) := by
    unfold processBoardSetup findPMTconfig
    rw [hlookup, hsid]
    simp [hne]
  refine ⟨hstep, ?_⟩
  have herr := processAllBoards_error_of_elem hmem hstep
  unfold matchBoardConfigurationAndSetup
  cases hall : processAllBoards (some cfgs).isSome cfg.requireKnownBoards t
      (sortConfigsByName ((some cfgs).getD [])) setups with
  | error e2 => rfl
  | ok x => exact absurd hall (herr x)

theorem pmt_configConflict_aborts_witness :
    processBoardSetup true true 2 (sortConfigsByName [⟨"A", 7, 100, 1⟩]) ⟨"A", some 5, 0⟩
        = .error (.configConflict "A" 7 5)
    ∧ (matchBoardConfigurationAndSetup ⟨false, true, true⟩ 2 (some [⟨"A", 7, 100, 1⟩])
        [⟨"A", some 5, 0⟩]).isOk = false :=
  pmt_configConflict_aborts ⟨false, true, true⟩ 2 [⟨"A", 7, 100, 1⟩] [⟨"A", some 5, 0⟩]
    ⟨"A", some 5, 0⟩ ⟨"A", 7, 100, 1⟩ 5 (by decide) (by decide) rfl (by decide)

/-- C6: the fatal-versus-warn handling of a setup board with no matching PMT
configuration is NOT controlled by the `RequireBoardConfig` option: the
resolver result is entirely independent of that flag (it is stored but never
consulted), and with `RequireBoardConfig = false` (which per the claim
should only produce a warning) but `RequireKnownBoards = true` (its default)
the resolution still aborts with a fatal error. -/
theorem pmt_requireBoardConfig_unused :
    (∀ (d d' rbc rbc' k : Bool) (t : Nanoseconds)
        (pc : Option (List V1730Configuration)) (setups : List BoardSetup_t),
        matchBoardConfigurationAndSetup ⟨d, k, rbc⟩ t pc setups
          = matchBoardConfigurationAndSetup ⟨d', k, rbc'⟩ t pc setups)
    ∧ matchBoardConfigurationAndSetup ⟨false, true, false⟩ 2
        (some [⟨"B", 7, 100, 1⟩]) [⟨"A", some 1, 0⟩]
        = .error (.noDAQConfiguration "A") :=
  ⟨fun _ _ _ _ _ _ _ _ => rfl, by decide⟩

/-- C9 counterexample: a setup entry with unset fragment ID and no matching
configuration entry does NOT always resolve to a mere warning: when a PMT
configuration is available (but lacks the board) and `RequireKnownBoards` is
left at its default (true), resolution aborts with an error on account of
that device. -/
theorem pmt_skip_unresolvable_counterexample :
    matchBoardConfigurationAndSetup ⟨false, true, true⟩ 2
        (some [⟨"B", 7, 100, 1⟩]) [⟨"A", none, 0⟩]
        = .error (.noDAQConfiguration "A") := by decide

/-- C9 amended: when no PMT configuration is provided, a setup entry whose
fragment ID is unset is skipped: processing it yields no record and exactly
one warning naming the device, resolution of the whole setup list always
succeeds, and the resulting database equals the one obtained without the
entry. -/
theorem pmt_skip_unresolvable_board
    (cfg : PMTDecoderConfig) (t : Nanoseconds)
    (xs ys : List BoardSetup_t) (e : BoardSetup_t)
    (he : e.fragmentID = none) :
    processBoardSetup false cfg.requireKnownBoards t [] e
        = .ok (none, [.noFragmentIDAssociation e.name])
    ∧ ∃ db ws db2 ws2,
        matchBoardConfigurationAndSetup cfg t none (xs ++ e :: ys) = .ok (db, ws)
        ∧ matchBoardConfigurationAndSetup cfg t none (xs ++ ys) = .ok (db2, ws2)
        ∧ db = db2 := by
  have hstepAll : ∀ s : BoardSetup_t,
      ∃ y, processBoardSetup false cfg.requireKnownBoards t [] s = .ok y := by
    intro s
    rw [processBoardSetup_noConfig]
    cases s.fragmentID <;> exact ⟨_, rfl⟩
  have hstepE : processBoardSetup false cfg.requireKnownBoards t [] e
      = .ok (none, [.noFragmentIDAssociation e.name]) := by
    rw [processBoardSetup_noConfig, he]
  refine ⟨hstepE, ?_⟩
  obtain ⟨⟨recs1, ws1⟩, h1⟩ :=
    @processAllBoards_all_ok false cfg.requireKnownBoards t [] (xs ++ e :: ys)
      (fun s _ => hstepAll s)
  obtain ⟨⟨recs2, ws2⟩, h2⟩ :=
    @processAllBoards_all_ok false cfg.requireKnownBoards t [] (xs ++ ys)
      (fun s _ => hstepAll s)
  refine ⟨freezeDatabase recs1, ws1, freezeDatabase recs2, ws2,
    @matchBoard_ok_intro cfg t none (xs ++ e :: ys) recs1 ws1 h1,
    @matchBoard_ok_intro cfg t none (xs ++ ys) recs2 ws2 h2, ?_⟩
  have hr1 := processAllBoards_records h1
  have hr2 := processAllBoards_records h2
  have hre : stepRecord false cfg.requireKnownBoards t [] e = none := by
    unfold stepRecord
    rw [hstepE]
  rw [hr1, hr2, List.filterMap_append, List.filterMap_append, List.filterMap_cons, hre]

theorem pmt_skip_unresolvable_board_witness :
    (processBoardSetup false true 2 [] ⟨"A", none, 0⟩
        = .ok (none, [.noFragmentIDAssociation "A"])
    ∧ ∃ db ws db2 ws2,
        matchBoardConfigurationAndSetup ⟨false, true, true⟩ 2 none
            ([⟨"B", some 9, 0⟩] ++ ⟨"A", none, 0⟩ :: []) = .ok (db, ws)
        ∧ matchBoardConfigurationAndSetup ⟨false, true, true⟩ 2 none
            ([⟨"B", some 9, 0⟩] ++ []) = .ok (db2, ws2)
        ∧ db = db2) :=
  pmt_skip_unresolvable_board ⟨false, true, true⟩ 2 [⟨"B", some 9, 0⟩] [] ⟨"A", none, 0⟩ rfl

/-- C10: the claim that the per-setup configuration lookup is total fails on
the code: when a PMT configuration is available, the board name is absent
from it, and `RequireKnownBoards` is false, the lambda reaches the unguarded
`return ppBoardConfig->second;` and dereferences the null binary-search
result (undefined behaviour) instead of returning a null configuration
indicator. -/
theorem pmt_findPMTconfig_null_deref :
    findPMTconfig true false (sortConfigsByName [⟨"B", 7, 100, 1⟩]) "A"
        = .error (.nullPointerDereference "A")
    ∧ matchBoardConfigurationAndSetup ⟨false, false, true⟩ 2
        (some [⟨"B", 7, 100, 1⟩]) [⟨"A", some 1, 0⟩]
        = .error (.nullPointerDereference "A") := by decide

/-- C5: for a fragment whose board record is found in the database, every
waveform of the fragment is stamped with
`startTime = referenceTriggerTime - triggerDelay - preTriggerDuration`,
where the trigger delay is the record setup delay when the setup reference
is present (else zero) and the pre-trigger duration is the record facts
value. -/
theorem pmt_startTime_formula
    (cfg : PMTDecoderConfig) (triggerTime : Rat)
    (channelMap : Nat → Option (List (Nat × Nat)))
    (database : List BoardInfo_t) (headerSizeQuad : Nat)
    (frag : CAENFragment) (collection : List OpDetWaveform)
    (pairs : List (Nat × Nat)) (bi : BoardInfo_t)
    (hmap : channelMap (frag.fragmentID % 4096) = some pairs)
    (hfind : findBoardInfo database frag.fragmentID = some bi) :
    process_fragment cfg triggerTime channelMap database headerSizeQuad frag collection
      = .ok (collection ++ emitWaveforms pairs
          (triggerTime
            - (match bi.setup with | some s => s.triggerDelay | none => 0)
            - bi.facts.preTriggerTime)
          frag.payload
          (nSamplesPerChannel frag.eventSizeQuad headerSizeQuad frag.nChannels)) := by
  unfold process_fragment
  simp only [hmap, hfind]
  rfl

theorem pmt_startTime_formula_witness :
    process_fragment ⟨false, true, true⟩ 1000
        (fun n => if n = 10 then some [(0, 101)] else none)
        [⟨10, some ⟨"board", some 10, 43⟩, none, ⟨2000⟩⟩] 4
        ⟨10, 8, 0, 1, [1, 2, 3, 4, 5, 6, 7, 8]⟩ []
      = .ok [⟨-1043, 101, [1, 2, 3, 4, 5, 6, 7, 8]⟩] := by
  have h := pmt_startTime_formula ⟨false, true, true⟩ 1000
    (fun n => if n = 10 then some [(0, 101)] else none)
    [⟨10, some ⟨"board", some 10, 43⟩, none, ⟨2000⟩⟩] 4
    ⟨10, 8, 0, 1, [1, 2, 3, 4, 5, 6, 7, 8]⟩ []
    [(0, 101)] ⟨10, some ⟨"board", some 10, 43⟩, none, ⟨2000⟩⟩ (by decide) (by decide)
  rw [h]
  norm_num [emitWaveforms, nSamplesPerChannel, dataSizeDoubleBytes, u32]

/-- C7: for a fragment whose ID has no record in the database (and whose
channel mapping exists), the decoder throws the unknown-board error naming
the fragment ID when `RequireKnownBoards` is true; when it is false it
proceeds with zero trigger delay and zero pre-trigger duration, so every
waveform is stamped exactly with the reference trigger time, and the
display name is the synthesized placeholder embedding the fragment ID. -/
theorem pmt_unknownBoard_handling
    (cfg : PMTDecoderConfig) (triggerTime : Rat)
    (channelMap : Nat → Option (List (Nat × Nat)))
    (database : List BoardInfo_t) (headerSizeQuad : Nat)
    (frag : CAENFragment) (collection : List OpDetWaveform)
    (pairs : List (Nat × Nat))
    (hmap : channelMap (frag.fragmentID % 4096) = some pairs)
    (hfind : findBoardInfo database frag.fragmentID = none) :
    (cfg.requireKnownBoards = true →
      process_fragment cfg triggerTime channelMap database headerSizeQuad frag collection
        = .error (.unknownBoard frag.fragmentID))
    ∧ (cfg.requireKnownBoards = false →
      process_fragment cfg triggerTime channelMap database headerSizeQuad frag collection
        = .ok (collection ++ emitWaveforms pairs triggerTime frag.payload
            (nSamplesPerChannel frag.eventSizeQuad headerSizeQuad frag.nChannels)))
    ∧ (fetchNeededBoardInfo none frag.fragmentID).name
        = "<ID=" ++ toString frag.fragmentID
    ∧ (fetchNeededBoardInfo none frag.fragmentID).PMTtriggerDelay = 0
    ∧ (fetchNeededBoardInfo none frag.fragmentID).preTriggerTime = 0 := by
  refine ⟨?_, ?_, rfl, rfl, rfl⟩
  · intro hk
    unfold process_fragment
    simp only [hmap, hfind, hk]
    rfl
  · intro hk
    unfold process_fragment
    simp only [hmap, hfind, hk]
    simp [fetchNeededBoardInfo]

theorem pmt_unknownBoard_handling_witness :
    process_fragment ⟨false, true, true⟩ 1000
        (fun n => if n = 10 then some [(0, 101)] else none)
        [] 4 ⟨10, 8, 0, 1, [1, 2, 3, 4, 5, 6, 7, 8]⟩ []
      = .error (.unknownBoard 10)
    ∧ process_fragment ⟨false, false, true⟩ 1000
        (fun n => if n = 10 then some [(0, 101)] else none)
        [] 4 ⟨10, 8, 0, 1, [1, 2, 3, 4, 5, 6, 7, 8]⟩ []
      = .ok [⟨1000, 101, [1, 2, 3, 4, 5, 6, 7, 8]⟩] := by
  constructor
  · exact (pmt_unknownBoard_handling ⟨false, true, true⟩ 1000
      (fun n => if n = 10 then some [(0, 101)] else none)
      [] 4 ⟨10, 8, 0, 1, [1, 2, 3, 4, 5, 6, 7, 8]⟩ [] [(0, 101)]
      (by decide) rfl).1 rfl
  · have h := (pmt_unknownBoard_handling ⟨false, false, true⟩ 1000
      (fun n => if n = 10 then some [(0, 101)] else none)
      [] 4 ⟨10, 8, 0, 1, [1, 2, 3, 4, 5, 6, 7, 8]⟩ [] [(0, 101)]
      (by decide) rfl).2.1 rfl
    rw [h]
    norm_num [emitWaveforms, nSamplesPerChannel, dataSizeDoubleBytes, u32]

/-- C2 counterexample: a fragment whose payload size does not divide evenly
across the declared channel count is NOT rejected with a fatal error and
does NOT emit zero waveforms: with 6 sixteen-bit samples over 4 channels the
division truncates to 1 sample per channel, processing succeeds, and one
(truncated) waveform per mapped channel is emitted. -/
theorem pmt_truncating_division_counterexample :
    dataSizeDoubleBytes 7 4 % 4 ≠ 0
    ∧ nSamplesPerChannel 7 4 4 = 1
    ∧ process_fragment ⟨false, false, true⟩ 0
        (fun n => if n = 10 then some [(0, 101), (1, 102), (2, 103), (3, 104)] else none)
        [] 4 ⟨10, 7, 0, 4, [1, 2, 3, 4, 5, 6]⟩ []
        = .ok [⟨0, 101, [1]⟩, ⟨0, 102, [2]⟩, ⟨0, 103, [3]⟩, ⟨0, 104, [4]⟩] := by
  refine ⟨by decide, by decide, ?_⟩
  norm_num [process_fragment, findBoardInfo, fetchNeededBoardInfo, emitWaveforms,
    nSamplesPerChannel, dataSizeDoubleBytes, u32]

/-- C2 amended: `samplesPerChannel` is computed as the truncating division
`2 * (eventSize - headerSize) / channelCount` (for in-range header fields);
a payload that does not divide evenly is not surfaced as an error: when the
channel map and the database cover the fragment, processing succeeds and
emits exactly one waveform per mapped channel, each carrying the floored
number of samples (the remainder is silently dropped). -/
theorem pmt_samplesPerChannel_floor_div
    (cfg : PMTDecoderConfig) (triggerTime : Rat)
    (channelMap : Nat → Option (List (Nat × Nat)))
    (database : List BoardInfo_t) (headerSizeQuad : Nat)
    (frag : CAENFragment) (collection : List OpDetWaveform)
    (pairs : List (Nat × Nat)) (bi : BoardInfo_t)
    (hev : frag.eventSizeQuad < 4294967296)
    (hhdr : headerSizeQuad ≤ frag.eventSizeQuad)
    (hsz : 2 * (frag.eventSizeQuad - headerSizeQuad) < 4294967296)
    (hmap : channelMap (frag.fragmentID % 4096) = some pairs)
    (hfind : findBoardInfo database frag.fragmentID = some bi)
    (hlen : ∀ p ∈ pairs,
      p.1 * (2 * (frag.eventSizeQuad - headerSizeQuad) / frag.nChannels)
        + 2 * (frag.eventSizeQuad - headerSizeQuad) / frag.nChannels
        ≤ frag.payload.length) :
    nSamplesPerChannel frag.eventSizeQuad headerSizeQuad frag.nChannels
      = 2 * (frag.eventSizeQuad - headerSizeQuad) / frag.nChannels
    ∧ ∃ out, process_fragment cfg triggerTime channelMap database headerSizeQuad
          frag collection = .ok (collection ++ out)
      ∧ out.length = pairs.length
      ∧ ∀ w ∈ out, w.waveform.length
          = 2 * (frag.eventSizeQuad - headerSizeQuad) / frag.nChannels := by
  have hns : nSamplesPerChannel frag.eventSizeQuad headerSizeQuad frag.nChannels
      = 2 * (frag.eventSizeQuad - headerSizeQuad) / frag.nChannels := by
    unfold nSamplesPerChannel dataSizeDoubleBytes u32
    have h1 : frag.eventSizeQuad % 4294967296 = frag.eventSizeQuad := Nat.mod_eq_of_lt hev
    have h2 : headerSizeQuad % 4294967296 = headerSizeQuad :=
      Nat.mod_eq_of_lt (Nat.lt_of_le_of_lt hhdr hev)
    rw [h1, h2]
    have h3 : (frag.eventSizeQuad + 4294967296 - headerSizeQuad) % 4294967296
        = frag.eventSizeQuad - headerSizeQuad := by omega
    rw [h3]
    have h4 : 2 * (frag.eventSizeQuad - headerSizeQuad) % 4294967296
        = 2 * (frag.eventSizeQuad - headerSizeQuad) := Nat.mod_eq_of_lt hsz
    rw [h4]
  refine ⟨hns, emitWaveforms pairs
      (triggerTime - (fetchNeededBoardInfo (some bi) frag.fragmentID).PMTtriggerDelay
        - (fetchNeededBoardInfo (some bi) frag.fragmentID).preTriggerTime)
      frag.payload
      (nSamplesPerChannel frag.eventSizeQuad headerSizeQuad frag.nChannels), ?_, ?_, ?_⟩
  · unfold process_fragment
    simp only [hmap, hfind]
  · simp [emitWaveforms]
  · intro w hw
    simp only [emitWaveforms, List.mem_map] at hw
    obtain ⟨p, hp, hwp⟩ := hw
    rw [← hwp]
    simp only [List.length_take, List.length_drop]
    rw [hns]
    have := hlen p hp
    omega

theorem pmt_samplesPerChannel_floor_div_witness :
    nSamplesPerChannel 7 4 4 = 2 * (7 - 4) / 4
    ∧ ∃ out, process_fragment ⟨false, false, true⟩ 0
          (fun n => if n = 10 then some [(0, 101), (1, 102), (2, 103), (3, 104)] else none)
          [⟨10, some ⟨"board", some 10, 0⟩, none, ⟨0⟩⟩] 4
          ⟨10, 7, 0, 4, [1, 2, 3, 4, 5, 6]⟩ [] = .ok ([] ++ out)
      ∧ out.length = ([(0, 101), (1, 102), (2, 103), (3, 104)] : List (Nat × Nat)).length
      ∧ ∀ w ∈ out, w.waveform.length = 2 * (7 - 4) / 4 :=
  pmt_samplesPerChannel_floor_div ⟨false, false, true⟩ 0
    (fun n => if n = 10 then some [(0, 101), (1, 102), (2, 103), (3, 104)] else none)
    [⟨10, some ⟨"board", some 10, 0⟩, none, ⟨0⟩⟩] 4
    ⟨10, 7, 0, 4, [1, 2, 3, 4, 5, 6]⟩ []
    [(0, 101), (1, 102), (2, 103), (3, 104)] ⟨10, some ⟨"board", some 10, 0⟩, none, ⟨0⟩⟩
    (by decide) (by decide) (by decide) (by decide) (by decide) (by decide)

/-- C8: a synthetic fragment with 2 channels, 4 samples per channel, payload
`[1..8]` and channel map `{0 -> 101, 1 -> 102}` produces exactly the two
waveforms `(T, 101, [1,2,3,4])` and `(T, 102, [5,6,7,8])`; the final sort of
`outputDataProducts` returns them ordered by channel number ascending
regardless of the emission order; and in general the final collection is a
permutation of the accumulated one, sorted by channel number. -/
theorem pmt_roundTrip_emission_and_sort :
    (∀ T : Rat,
      process_fragment ⟨false, false, true⟩ T
          (fun n => if n = 10 then some [(0, 101), (1, 102)] else none)
          [] 4 ⟨10, 8, 0, 2, [1, 2, 3, 4, 5, 6, 7, 8]⟩ []
        = .ok [⟨T, 101, [1, 2, 3, 4]⟩, ⟨T, 102, [5, 6, 7, 8]⟩])
    ∧ (∀ T : Rat,
      process_fragment ⟨false, false, true⟩ T
          (fun n => if n = 10 then some [(1, 102), (0, 101)] else none)
          [] 4 ⟨10, 8, 0, 2, [1, 2, 3, 4, 5, 6, 7, 8]⟩ []
        = .ok [⟨T, 102, [5, 6, 7, 8]⟩, ⟨T, 101, [1, 2, 3, 4]⟩])
    ∧ (∀ T : Rat,
      outputDataProducts [⟨T, 102, [5, 6, 7, 8]⟩, ⟨T, 101, [1, 2, 3, 4]⟩]
        = [⟨T, 101, [1, 2, 3, 4]⟩, ⟨T, 102, [5, 6, 7, 8]⟩]
      ∧ outputDataProducts [⟨T, 101, [1, 2, 3, 4]⟩, ⟨T, 102, [5, 6, 7, 8]⟩]
        = [⟨T, 101, [1, 2, 3, 4]⟩, ⟨T, 102, [5, 6, 7, 8]⟩])
    ∧ (∀ wfs : List OpDetWaveform,
      (outputDataProducts wfs).Pairwise (fun a b => a.channelNumber ≤ b.channelNumber)
      ∧ (outputDataProducts wfs).Perm wfs) := by
  refine ⟨?_, ?_, ?_, ?_⟩
  · intro T
    simp [process_fragment, findBoardInfo, fetchNeededBoardInfo, emitWaveforms,
      nSamplesPerChannel, dataSizeDoubleBytes, u32]
  · intro T
    simp [process_fragment, findBoardInfo, fetchNeededBoardInfo, emitWaveforms,
      nSamplesPerChannel, dataSizeDoubleBytes, u32]
  · intro T
    constructor <;>
      simp [outputDataProducts, wfChannelLE, List.insertionSort, List.orderedInsert]
  · intro wfs
    exact ⟨List.sorted_insertionSort wfChannelLE wfs,
      List.perm_insertionSort wfChannelLE wfs⟩

theorem findPMTconfig_congr {h h' k : Bool} {c c' : List V1730Configuration}
    (name : String) (hh : h = h')
    (hbs : binarySearchByName c name = binarySearchByName c' name) :
    findPMTconfig h k c name = findPMTconfig h' k c' name := by
  unfold findPMTconfig
  rw [hh, hbs]

theorem processBoardSetup_congr2 {h h' k : Bool} {t : Nanoseconds}
    {c c' : List V1730Configuration} (s : BoardSetup_t)
    (hf : findPMTconfig h k c s.name = findPMTconfig h' k c' s.name) :
    processBoardSetup h k t c s = processBoardSetup h' k t c' s := by
  unfold processBoardSetup
  rw [hf]

theorem processAllBoards_isOk_perm {h k : Bool} {t : Nanoseconds}
    {c : List V1730Configuration} {l l' : List BoardSetup_t}
    (hperm : l.Perm l') :
    (processAllBoards h k t c l).isOk = (processAllBoards h k t c l').isOk := by
  cases hr : processAllBoards h k t c l with
  | ok x =>
    have hall := processAllBoards_ok_elem hr
    obtain ⟨y, hy⟩ := @processAllBoards_all_ok h k t c l'
      (fun s hs => hall s (hperm.mem_iff.mpr hs))
    rw [hy]
    rfl
  | error e =>
    cases hr' : processAllBoards h k t c l' with
    | error e2 => rfl
    | ok x =>
      have hall := processAllBoards_ok_elem hr'
      obtain ⟨y, hy⟩ := @processAllBoards_all_ok h k t c l
        (fun s hs => hall s (hperm.mem_iff.mp hs))
      rw [hr] at hy
      cases hy

theorem matchBoard_isOk_eq (cfg : PMTDecoderConfig) (t : Nanoseconds)
    (pc : Option (List V1730Configuration)) (setups : List BoardSetup_t) :
    (matchBoardConfigurationAndSetup cfg t pc setups).isOk
      = (processAllBoards pc.isSome cfg.requireKnownBoards t
          (sortConfigsByName (pc.getD [])) setups).isOk := by
  unfold matchBoardConfigurationAndSetup
  cases processAllBoards pc.isSome cfg.requireKnownBoards t
      (sortConfigsByName (pc.getD [])) setups with
  | error e => rfl
  | ok x =>
    obtain ⟨recs, ws⟩ := x
    rfl

/-- Decidable statement that a resolution run, when it succeeds, yields
records with pairwise distinct fragment IDs (an error run passes
vacuously); hypothesis of the permutation-invariance theorem. -/
def resolvedKeysNodup (hasPMTconfig requireKnownBoards : Bool)
    (t : Nanoseconds) (configByName : List V1730Configuration)
    (setups : List BoardSetup_t) : Bool :=
  match processAllBoards hasPMTconfig requireKnownBoards t configByName setups with
  | .error _ => true
  | .ok (recs, _) => decide (recs.map BoardInfo_t.fragmentID).Nodup

/-- C3 counterexample: resolution is NOT invariant under permutation of the
setup list: two setup entries carrying the same fragment ID but different
trigger delays survive deduplication differently depending on their input
order, yielding different databases for permuted inputs (and identical,
trivially permuted, configuration inputs). -/
theorem pmt_resolve_perm_counterexample :
    matchBoardConfigurationAndSetup ⟨false, false, true⟩ 2 none
        [⟨"A", some 5, 1⟩, ⟨"B", some 5, 2⟩]
      ≠ matchBoardConfigurationAndSetup ⟨false, false, true⟩ 2 none
        [⟨"B", some 5, 2⟩, ⟨"A", some 5, 1⟩] := by decide

/-- C3 amended: provided the configuration board names are pairwise distinct
and the records produced by the resolution run carry pairwise distinct
fragment IDs, resolution is deterministic up to input order: permuting the
setup list and the configuration list preserves success-versus-failure, and
any two successful runs on permuted inputs produce the same database. -/
theorem pmt_resolve_perm_invariant
    (cfg : PMTDecoderConfig) (t : Nanoseconds)
    (pc pc' : Option (List V1730Configuration))
    (setups setups' : List BoardSetup_t)
    (hsome : pc.isSome = pc'.isSome)
    (hcperm : (pc.getD []).Perm (pc'.getD []))
    (hsperm : setups.Perm setups')
    (hnames : ((pc.getD []).map V1730Configuration.boardName).Nodup)
    (hkeys : resolvedKeysNodup pc.isSome cfg.requireKnownBoards t
        (sortConfigsByName (pc.getD [])) setups = true) :
    (matchBoardConfigurationAndSetup cfg t pc setups).isOk
      = (matchBoardConfigurationAndSetup cfg t pc' setups').isOk
    ∧ ∀ db ws db' ws',
        matchBoardConfigurationAndSetup cfg t pc setups = .ok (db, ws) →
        matchBoardConfigurationAndSetup cfg t pc' setups' = .ok (db', ws') →
        db = db' := by
  have hbs : ∀ name, binarySearchByName (sortConfigsByName (pc.getD [])) name
      = binarySearchByName (sortConfigsByName (pc'.getD [])) name :=
    fun name => binarySearchByName_perm hnames hcperm name
  have hstep : ∀ s, processBoardSetup pc.isSome cfg.requireKnownBoards t
        (sortConfigsByName (pc.getD [])) s
      = processBoardSetup pc'.isSome cfg.requireKnownBoards t
        (sortConfigsByName (pc'.getD [])) s :=
    fun s => processBoardSetup_congr2 s (findPMTconfig_congr s.name hsome (hbs s.name))
  have hcongr := processAllBoards_congr hstep setups'
  constructor
  · rw [matchBoard_isOk_eq, matchBoard_isOk_eq, ← hcongr]
    exact processAllBoards_isOk_perm hsperm
  · intro db ws db' ws' h1 h2
    obtain ⟨recs, hok1, hdb1⟩ := matchBoard_ok_elim h1
    obtain ⟨recs', hok2, hdb2⟩ := matchBoard_ok_elim h2
    rw [← hcongr] at hok2
    have hr1 := processAllBoards_records hok1
    have hr2 := processAllBoards_records hok2
    have hperm_rec : recs.Perm recs' := by
      rw [hr1, hr2]
      exact hsperm.filterMap _
    have hnd : (recs.map BoardInfo_t.fragmentID).Nodup := by
      unfold resolvedKeysNodup at hkeys
      rw [hok1] at hkeys
      exact of_decide_eq_true hkeys
    rw [hdb1, hdb2]
    exact freezeDatabase_eq_of_perm hperm_rec hnd

theorem pmt_resolve_perm_invariant_witness :
    ((matchBoardConfigurationAndSetup ⟨false, true, true⟩ 2 none
        [⟨"A", some 1, 0⟩, ⟨"B", some 2, 0⟩]).isOk
      = (matchBoardConfigurationAndSetup ⟨false, true, true⟩ 2 none
        [⟨"B", some 2, 0⟩, ⟨"A", some 1, 0⟩]).isOk)
    ∧ ∀ db ws db' ws',
        matchBoardConfigurationAndSetup ⟨false, true, true⟩ 2 none
            [⟨"A", some 1, 0⟩, ⟨"B", some 2, 0⟩] = .ok (db, ws) →
        matchBoardConfigurationAndSetup ⟨false, true, true⟩ 2 none
            [⟨"B", some 2, 0⟩, ⟨"A", some 1, 0⟩] = .ok (db', ws') →
        db = db' :=
  pmt_resolve_perm_invariant ⟨false, true, true⟩ 2 none none
    [⟨"A", some 1, 0⟩, ⟨"B", some 2, 0⟩] [⟨"B", some 2, 0⟩, ⟨"A", some 1, 0⟩]
    rfl (List.Perm.refl []) (by decide) (by decide) (by decide)
